import Mathlib

/-!
Verification of the Saverpe gifting dashboard (`app.py`) against its
natural-language specification.  The Python source is shallowly embedded:
strings become `List Char`, the fence-stripping heuristic, the JSON decoding,
the model-selection expression, the prompt construction and the summary
metrics are translated into executable Lean definitions, and the spec's
testable properties are settled as theorems about those definitions.
-/
set_option maxRecDepth 4000

/-- Python strings are modelled as lists of characters. -/
abbrev Str := List Char

/-! ## Substring scanning (Python `in` and `str.split` pieces)

`s.split(sep)[1]` (for an occurring, non-empty `sep`) is the segment of `s`
strictly between the end of the first occurrence of `sep` and the start of the
next occurrence (or the end of `s`); `s.split(sep)[0]` is the segment before
the first occurrence.  We model exactly those two access patterns via the
index of the first occurrence of a pattern. -/
/-- Index of the first occurrence of `pat` in `s` (`none` if `pat` does not
occur).  An occurrence at `j` means `pat` is a prefix of `s.drop j`. -/
def firstOcc (pat : Str) : Str → Option Nat
  | [] => if pat.isPrefixOf [] then some 0 else none
  | c :: t => if pat.isPrefixOf (c :: t) then some 0 else (firstOcc pat t).map (· + 1)

/-- Python's `pat in s` substring test. -/
def containsSub (pat s : Str) : Bool := (firstOcc pat s).isSome

/-- The part of `s` strictly before the first occurrence of `pat`
(`s` itself when `pat` does not occur): Python's `s.split(pat)[0]`. -/
def takeUntil (pat s : Str) : Str :=
  match firstOcc pat s with
  | none => s
  | some i => s.take i

/-- The part of `s` strictly after the first occurrence of `pat`
(`[]` when `pat` does not occur). -/
def afterFirst (pat s : Str) : Str :=
  match firstOcc pat s with
  | none => []
  | some i => s.drop (i + pat.length)

/-- The labeled code-fence marker the extractor looks for first. -/
def fenceJson : Str := ("```json").data

/-- The bare fence marker / fence terminator. -/
def fenceBare : Str := ("```").data

/-- Fence-stripping step of the Response Extractor (`app.py` lines 156-160):

    if "```json" in text:
        text = text.split("```json")[1].split("```")[0]
    elif "```" in text:
        text = text.split("```")[1].split("```")[0]

`split(sep)[1]` is modelled as `takeUntil sep (afterFirst sep text)` (the
piece after the first occurrence, cut at the next occurrence), and the final
`split("```")[0]` as a `takeUntil`. -/
def pyStrip (text : Str) : Str :=
  if containsSub fenceJson text then
    takeUntil fenceBare (takeUntil fenceJson (afterFirst fenceJson text))
  else if containsSub fenceBare text then
    takeUntil fenceBare (takeUntil fenceBare (afterFirst fenceBare text))
  else text

/-! ### Claim C1: fence stripping on `prefix ++ fence ++ body ++ fence ++ suffix` -/
/-- Side condition for the labeled-fence case: no occurrence of the labeled
marker starts strictly inside the closing terminator (first occurrence in
`body ++ "```" ++ suf`, if any, is at the terminator or at least 3 past the
end of `body`). -/
def fenceSafe (body suf : Str) : Bool :=
  match firstOcc fenceJson (body ++ fenceBare ++ suf) with
  | none => true
  | some q => q == body.length || Nat.ble (body.length + 3) q

/-! ### Claim C4: responses without fence markers -/
/-- Python `str.strip()` whitespace test (ASCII whitespace; the additional
Unicode whitespace code points Python also strips are not modelled — no claim
involves them). -/
def pyIsSpace (c : Char) : Bool :=
  c == ' ' || c == '\t' || c == '\n' || c == '\r' || c == '\x0b' || c == '\x0c'

/-- Python `text.strip()`. -/
def pyStringStrip (s : Str) : Str :=
  ((s.dropWhile pyIsSpace).reverse.dropWhile pyIsSpace).reverse

/-- The text the extractor hands to the structural parser (`app.py` line 162:
`json.loads(text.strip())`): the fence-stripped text, whitespace-stripped. -/
def parserInput (text : Str) : Str := pyStringStrip (pyStrip text)

/-! ## JSON values and `json.loads`

Python's `json.loads` (default decoder, `strict=True`) is modelled as a
recursive-descent parser over `Str`.  Numbers are represented as exact
rationals (Python's int/float distinction and binary-float rounding are not
modelled; every claim involving numbers uses integer-valued amounts, where
the two coincide).  Python's `NaN`/`Infinity`/`-Infinity` extensions are kept
as explicit constructors.  Lone surrogate escapes (which Python would accept)
are not representable as Lean `Char` and are rejected; no claim involves
them. -/
inductive Json where
  | null
  | bool (b : Bool)
  | num (q : ℚ)
  | str (s : Str)
  | arr (xs : List Json)
  | obj (kvs : List (Str × Json))
  | nan
  | inf (pos : Bool)

/-- JSON whitespace (`json.decoder`: space, tab, newline, carriage return —
note: narrower than Python `str.strip`'s whitespace). -/
def jsonWS (c : Char) : Bool := c == ' ' || c == '\t' || c == '\n' || c == '\r'

def skipWS (s : Str) : Str := s.dropWhile jsonWS

def hexVal (c : Char) : Option Nat :=
  if '0' ≤ c ∧ c ≤ '9' then some (c.toNat - 48)
  else if 'a' ≤ c ∧ c ≤ 'f' then some (c.toNat - 87)
  else if 'A' ≤ c ∧ c ≤ 'F' then some (c.toNat - 55)
  else none

def parseHex4 : Str → Option (Nat × Str)
  | a :: b :: c :: d :: rest =>
    match hexVal a, hexVal b, hexVal c, hexVal d with
    | some va, some vb, some vc, some vd => some ((((va * 16 + vb) * 16 + vc) * 16 + vd), rest)
    | _, _, _, _ => none
  | _ => none

/-- Body of a JSON string after the opening quote: strict-mode scanning with
the standard escapes, `\uXXXX`, and surrogate-pair combination. -/
def parseStringBody (fuel : Nat) (acc : Str) (s : Str) : Option (Str × Str) :=
  match fuel with
  | 0 => none
  | fuel + 1 =>
    match s with
    | [] => none
    | c :: rest =>
      if c == '"' then some (acc.reverse, rest)
      else if c == '\\' then
        match rest with
        | [] => none
        | e :: rest2 =>
          if e == '"' then parseStringBody fuel ('"' :: acc) rest2
          else if e == '\\' then parseStringBody fuel ('\\' :: acc) rest2
          else if e == '/' then parseStringBody fuel ('/' :: acc) rest2
          else if e == 'b' then parseStringBody fuel ('\x08' :: acc) rest2
          else if e == 'f' then parseStringBody fuel ('\x0c' :: acc) rest2
          else if e == 'n' then parseStringBody fuel ('\n' :: acc) rest2
          else if e == 'r' then parseStringBody fuel ('\x0d' :: acc) rest2
          else if e == 't' then parseStringBody fuel ('\t' :: acc) rest2
          else if e == 'u' then
            match parseHex4 rest2 with
            | none => none
            | some (n, rest3) =>
              if 0xD800 ≤ n ∧ n ≤ 0xDBFF then
                match rest3 with
                | '\\' :: 'u' :: rest4 =>
                  match parseHex4 rest4 with
                  | some (m, rest5) =>
                    if 0xDC00 ≤ m ∧ m ≤ 0xDFFF then
                      parseStringBody fuel
                        (Char.ofNat (0x10000 + (n - 0xD800) * 0x400 + (m - 0xDC00)) :: acc) rest5
                    else none
                  | none => none
                | _ => none
              else if 0xDC00 ≤ n ∧ n ≤ 0xDFFF then none
              else parseStringBody fuel (Char.ofNat n :: acc) rest3
          else none
      else if c.toNat < 0x20 then none
      else parseStringBody fuel (c :: acc) rest

def digitsToNat (ds : Str) : Nat := ds.foldl (fun a c => a * 10 + (c.toNat - 48)) 0

/-- Integer part per the JSON number grammar: `0` alone, or a nonzero digit
followed by digits (no leading zeros). -/
def parseIntPart (s : Str) : Option (Str × Str) :=
  match s with
  | [] => none
  | c :: rest =>
    if c == '0' then some ([c], rest)
    else if c.isDigit then some (c :: rest.takeWhile Char.isDigit, rest.dropWhile Char.isDigit)
    else none

/-- Fraction part `.digits` (consumed only when at least one digit follows
the dot, mirroring the `(\.\d+)?` group). -/
def parseFrac (s : Str) : Str × Str :=
  match s with
  | '.' :: rest =>
    let ds := rest.takeWhile Char.isDigit
    if ds.isEmpty then ([], s) else (ds, rest.dropWhile Char.isDigit)
  | _ => ([], s)

/-- Exponent part `[eE][+-]?digits` (consumed only when well-formed). -/
def parseExp (s : Str) : Option Int × Str :=
  match s with
  | e :: rest =>
    if e == 'e' || e == 'E' then
      match rest with
      | '+' :: r2 =>
        let ds := r2.takeWhile Char.isDigit
        if ds.isEmpty then (none, s)
        else (some (Int.ofNat (digitsToNat ds)), r2.dropWhile Char.isDigit)
      | '-' :: r2 =>
        let ds := r2.takeWhile Char.isDigit
        if ds.isEmpty then (none, s)
        else (some (-(Int.ofNat (digitsToNat ds))), r2.dropWhile Char.isDigit)
      | _ =>
        let ds := rest.takeWhile Char.isDigit
        if ds.isEmpty then (none, s)
        else (some (Int.ofNat (digitsToNat ds)), rest.dropWhile Char.isDigit)
    else (none, s)
  | [] => (none, s)

def parseNumber (s : Str) : Option (Json × Str) :=
  let signed : Bool × Str :=
    match s with
    | '-' :: rest => (true, rest)
    | _ => (false, s)
  match parseIntPart signed.2 with
  | none => none
  | some (ids, s2) =>
    let fr := parseFrac s2
    let ex := parseExp fr.2
    let mantissa : Nat := digitsToNat (ids ++ fr.1)
    let e : Int := (ex.1).getD 0
    let v : ℚ :=
      if 0 ≤ e then mkRat (Int.ofNat (mantissa * 10 ^ e.toNat)) (10 ^ fr.1.length)
      else mkRat (Int.ofNat mantissa) (10 ^ fr.1.length * 10 ^ (-e).toNat)
    some (.num (if signed.1 then -v else v), ex.2)

def removeKey (key : Str) (kvs : List (Str × Json)) : List (Str × Json) :=
  kvs.filter (fun kv => !(kv.1 == key))

/-- Python-dict duplicate-key semantics: first insertion position, last value
wins (`kvs` is the already-built mapping of the members to the right). -/
def insertKV (key : Str) (v : Json) (kvs : List (Str × Json)) : List (Str × Json) :=
  match kvs.lookup key with
  | some v' => (key, v') :: removeKey key kvs
  | none => (key, v) :: kvs

mutual

def parseValue : Nat → Str → Option (Json × Str)
  | 0, _ => none
  | fuel + 1, s =>
    match s with
    | [] => none
    | c :: rest =>
      if c == '"' then
        match parseStringBody (rest.length + 1) [] rest with
        | none => none
        | some (t, r) => some (.str t, r)
      else if c == '[' then
        match skipWS rest with
        | ']' :: r2 => some (.arr [], r2)
        | r1 =>
          match parseElems fuel r1 with
          | none => none
          | some (xs, r2) => some (.arr xs, r2)
      else if c == '{' then
        match skipWS rest with
        | '}' :: r2 => some (.obj [], r2)
        | r1 =>
          match parseMembers fuel r1 with
          | none => none
          | some (kvs, r2) => some (.obj kvs, r2)
      else if c == 't' then
        match rest with
        | 'r' :: 'u' :: 'e' :: r => some (.bool true, r)
        | _ => none
      else if c == 'f' then
        match rest with
        | 'a' :: 'l' :: 's' :: 'e' :: r => some (.bool false, r)
        | _ => none
      else if c == 'n' then
        match rest with
        | 'u' :: 'l' :: 'l' :: r => some (.null, r)
        | _ => none
      else if c == 'N' then
        match rest with
        | 'a' :: 'N' :: r => some (.nan, r)
        | _ => none
      else if c == 'I' then
        match rest with
        | 'n' :: 'f' :: 'i' :: 'n' :: 'i' :: 't' :: 'y' :: r => some (.inf true, r)
        | _ => none
      else if c == '-' then
        match rest with
        | 'I' :: 'n' :: 'f' :: 'i' :: 'n' :: 'i' :: 't' :: 'y' :: r => some (.inf false, r)
        | _ => parseNumber s
      else if c.isDigit then parseNumber s
      else none

def parseElems : Nat → Str → Option (List Json × Str)
  | 0, _ => none
  | fuel + 1, s =>
    match parseValue fuel s with
    | none => none
    | some (v, r) =>
      match skipWS r with
      | ',' :: r2 =>
        match parseElems fuel (skipWS r2) with
        | none => none
        | some (xs, r3) => some (v :: xs, r3)
      | ']' :: r2 => some ([v], r2)
      | _ => none

def parseMembers : Nat → Str → Option (List (Str × Json) × Str)
  | 0, _ => none
  | fuel + 1, s =>
    match s with
    | '"' :: rest =>
      match parseStringBody (rest.length + 1) [] rest with
      | none => none
      | some (key, r) =>
        match skipWS r with
        | ':' :: r2 =>
          match parseValue fuel (skipWS r2) with
          | none => none
          | some (v, r3) =>
            match skipWS r3 with
            | ',' :: r5 =>
              match parseMembers fuel (skipWS r5) with
              | none => none
              | some (kvs, r6) => some (insertKV key v kvs, r6)
            | '}' :: r5 => some ([(key, v)], r5)
            | _ => none
        | _ => none
    | _ => none

end

/-- `json.loads`: skip leading whitespace, parse one value, require only
whitespace to remain ("Extra data" otherwise). -/
def jsonLoads (s : Str) : Option Json :=
  match parseValue (2 * s.length + 4) (skipWS s) with
  | none => none
  | some (v, rest) => if (skipWS rest).isEmpty then some v else none

/-! ## `pd.DataFrame` construction and the response-processing block -/
/-- A data frame is modelled as its list of rows, each row an association
list from column label to cell value. -/
abbrev DFrame := List (List (Str × Json))

def rowOfJson : Json → Option (List (Str × Json))
  | .obj kvs => some kvs
  | _ => none

def isObjVal : Json → Bool
  | .obj _ => true
  | _ => false

def colLen : Str × Json → Option Nat
  | (_, .arr vs) => some vs.length
  | _ => none

def allColsLen (n : Nat) : List (Str × Json) → Bool
  | [] => true
  | (_, .arr vs) :: rest => vs.length == n && allColsLen n rest
  | _ => false

def dfFromCols (kvs : List (Str × Json)) (n : Nat) : DFrame :=
  (List.range n).map (fun i =>
    kvs.map (fun kv => (kv.1, match kv.2 with
      | .arr vs => vs.getD i .null
      | _ => .null)))

/-- `pd.DataFrame(data)` for the decoded JSON values the extractor can
produce.  A list of record objects gives one row per record (the empty list
gives the empty frame); a list of non-records gives a single positional
column (pandas labels it with the integer 0, rendered here as `"0"`); a dict
whose values are equal-length lists gives one row per index; `None` gives an
empty frame.  Raising cases (scalar input, all-scalar dicts, unequal column
lengths) are `none`.  Mixed record/non-record lists and scalar broadcasting
against list columns are not modelled — no claim depends on them. -/
def pdDataFrame : Json → Option DFrame
  | .arr xs =>
    if xs.all isObjVal then xs.mapM rowOfJson
    else if xs.all (fun x => !(isObjVal x)) then
      some (xs.map (fun x => [(("0").data, x)]))
    else none
  | .obj kvs =>
    match kvs with
    | [] => some []
    | kv :: _ =>
      match colLen kv with
      | some n => if allColsLen n kvs then some (dfFromCols kvs n) else none
      | none => none
  | .null => some []
  | _ => none

/-- Observable behaviour of the response-processing block of
`get_gemini_recommendations` (`app.py` lines 155-167): fence stripping,
`json.loads(text.strip())`, `pd.DataFrame(data)`; any exception is caught and
turns into `st.error` plus `return pd.DataFrame()`.  The result is the
returned frame paired with whether the error branch ran. -/
def processResponse (text : Str) : DFrame × Bool :=
  match jsonLoads (parserInput text) with
  | none => ([], true)
  | some v =>
    match pdDataFrame v with
    | none => ([], true)
    | some df => (df, false)

/-! ## Roster, CSV serialisation and the prompt (lines 67-77, 91-136)

CSV per `DataFrame.to_csv(index=False)` defaults: comma separator, `"\n"`
line terminator, minimal quoting (a field is quoted, with inner quotes
doubled, exactly when it contains a separator, a quote or a line break);
cells are taken as their rendered text. -/
structure Roster where
  header : List Str
  rows : List (List Str)

/-- `mock_employee_db` (lines 67-77); the source builds the frame from a
column dict, transposed here to rows, with cells as `str()` renders them. -/
def mockEmployeeDb : Roster where
  header := [("ID").data, ("Name").data, ("Department").data, ("Level").data,
    ("Role").data, ("Last_Reward_Date").data]
  rows := [
    [("101").data, ("Abhishek").data, ("Sales").data, ("L5").data, ("Manager").data, ("2025-10-01").data],
    [("102").data, ("Sarah").data, ("HR").data, ("L3").data, ("Generalist").data, ("2025-09-15").data],
    [("103").data, ("Raj").data, ("IT").data, ("L4").data, ("Developer").data, ("2025-11-01").data],
    [("104").data, ("Emily").data, ("Operations").data, ("L2").data, ("Associate").data, ("2025-08-20").data],
    [("105").data, ("Michael").data, ("Executive").data, ("L1").data, ("VP").data, ("2025-10-20").data]]

def csvNeedsQuote (f : Str) : Bool :=
  f.any (fun c => c == ',' || c == '"' || c == '\n' || c == '\r')

def escQuotes : Str → Str
  | [] => []
  | '"' :: rest => '"' :: '"' :: escQuotes rest
  | c :: rest => c :: escQuotes rest

def csvField (f : Str) : Str :=
  if csvNeedsQuote f then '"' :: (escQuotes f ++ ['"']) else f

def csvJoin : List Str → Str
  | [] => []
  | [f] => f
  | f :: rest => f ++ ',' :: csvJoin rest

def csvLine (fs : List Str) : Str := csvJoin (fs.map csvField) ++ ['\n']

/-- `employees_df.to_csv(index=False)` (line 91). -/
def toCsv (r : Roster) : Str := csvLine r.header ++ (r.rows.map csvLine).flatten

/-- The apostrophe character (the prompt text contains two). -/
def apos : Char := Char.ofNat 39

/-- The `CONTEXT_TYPES` constant (lines 21-28). -/
def ctxTypes : Str := ("\nEmployee Level,Budget Type,Budget Range,Complexity\nL1,Minimal,<500,Basic\nL2,Moderate,500-999,Medium\nL3,Substantial,1000-1999,Advanced\nL4,Extensive,2000-2999,Custom\nL5,Extravagant,3000+,Custom\n").data

/-- The `CONTEXT_RANKING` constant (lines 31-40). -/
def ctxRanking : Str := ("\nType,Sub-Type,Ranking - General\nFestive Gifting,Diwali,1\nMilestone,Incentives,2\nGeneral Festive,New Year,3\nPersonal Milestones,Birthday,4\nMilestone,Team Incentives,5\nPersonal Milestones,Marriage Anniversary,6\nPersonal Milestones,Promotions,7\n").data

/-- The `CONTEXT_REC_MAPPING` constant (lines 44-53). -/
def ctxRecMapping : Str := ("\nRecommendation Rank,Recommendation ID,Reward 1,Reward 2\n1,1,Bank Transfer,\n2,20,Single Use Card,\n3,2,Wallet Recharge,\n4,3,Multi-brand GC,\n1a,25,Bank Transfer,Multi-brand GC\n1b,26,Bank Transfer,Brand Product\n2a,442,Single Use Card,Wallet Recharge\n").data

/-- The `CONTEXT_QUERY1` constant (lines 56-63). -/
def ctxQuery1 : Str := ("\nID,Reward Type 1,Reward 1,Reward Type 2,Reward 2,Complexity\n1,Money,Bank Tranfer,,,Basic\n3,Gift_Cards,Multi brand,,,Basic\n25,Money,Bank Tranfer,Gift_Cards,Multi brand,Medium\n26,Money,Bank Tranfer,Products,Brand,Medium\n507,Money,Bank Tranfer,Money,Bank Tranfer,Advanced\n").data

def promptChunk1 : Str :=
  ("\n    You are the ").data ++ [apos] ++ ("Saverpe").data ++ [apos] ++
  (" Intelligent Reward Engine. \n    \n    ### 1. INPUTS:\n    - **Total Available Budget:** â‚¹").data

def promptChunk2 : Str := ("\n    - **Manual Level Allocations:** ").data

def promptChunk3 : Str :=
  (" (If \"0\", calculate optimal amount based on Total Budget).\n    - **Employee Data:** ").data

def promptChunk4 : Str :=
  ("\n\n    ### 2. RAG KNOWLEDGE BASE (STRICT RULES):\n    \n    **A. Budget & Complexity Mapping (Source: Types.csv):**\n    ").data ++
  ctxTypes ++
  ("\n    *Rule:* Use the \"Budget Range\" column to determine if an employee gets a Basic, Medium, or Advanced reward.\n    \n    **B. Frequency & Timing (Source: Rewarding & Gifting.csv):**\n    ").data ++
  ctxRanking ++
  ("\n    *Rule:* Suggest the \"Event\" based on the highest priority (Rank 1 = Diwali).\n    \n    **C. Recommendation IDs (Source: AI-Recommendation.csv & Query1.csv):**\n    ").data ++
  ctxRecMapping ++
  ("\n    ").data ++
  ctxQuery1 ++
  ("\n    *Rule:* You MUST select a valid \"Recommendation ID\" (e.g., 1, 25, 26) that matches the Complexity determined in Step A.\n    \n    ### 3. INSTRUCTIONS:\n    1. **Calculate Amount:** For each employee, decide the Reward Amount based on their Level (L1-L5). Use the Manual Allocations if provided; otherwise, distribute the Total Budget efficiently favoring higher levels (L5).\n    2. **Determine Complexity:** Compare the Amount to the \"Budget Range\" in Rule A to find the Complexity (Basic/Medium/Advanced).\n    3. **Select Combo:** Pick a \"Recommendation ID\" from Rule C that matches that Complexity.\n    4. **Determine Frequency:** Assign the \"Event\" based on Rule B (Ranking).\n    \n    ### 4. OUTPUT FORMAT:\n    Return ONLY a valid JSON array. No markdown.\n    [\n        \x7b\n            \"Employee_Name\": \"Name\",\n            \"Level\": \"L1/L2...\",\n            \"Department\": \"Dept\",\n            \"Allocated_Amount\": 0,\n            \"Complexity\": \"Basic/Medium/Advanced\",\n            \"Event\": \"e.g. Diwali\",\n            \"Recommendation_ID\": \"e.g. 25\",\n            \"Reward_Combo\": \"e.g. Bank Transfer + Gift Card\"\n        \x7d\n    ]\n    ").data

/-- The prompt f-string (lines 93-136): the literal text (the `â‚¹` mojibake
is in the source file's bytes) with the three interpolation slots
`{total_budget}`, `{level_overrides}` and `{employee_csv}` taken as their
rendered text. -/
def buildPrompt (budgetText overridesText employeeCsv : Str) : Str :=
  promptChunk1 ++ budgetText ++ promptChunk2 ++ overridesText ++ promptChunk3 ++
    employeeCsv ++ promptChunk4

/-- The full prompt for a roster. -/
def promptFor (r : Roster) (budgetText overridesText : Str) : Str :=
  buildPrompt budgetText overridesText (toCsv r)

/-! ## Model discovery, selection, and the function's control flow -/
/-- A listed model: its name and supported generation methods. -/
structure GModel where
  name : Str
  methods : List Str

def genContentMethod : Str := ("generateContent").data

/-- `available_models` (lines 139-143): names of the listed models whose
`supported_generation_methods` contains `'generateContent'` (Python `in` on a
list is element equality). -/
def availableModels (ms : List GModel) : List Str :=
  (ms.filter (fun m => m.methods.contains genContentMethod)).map (fun m => m.name)

def flashSub : Str := ("gemini-1.5-flash").data

/-- Python `next(gen, default)`: first element satisfying `p`. -/
def nextMatch (p : Str → Bool) : List Str → Option Str
  | [] => none
  | m :: t => if p m then some m else nextMatch p t

inductive SelectOutcome where
  | indexError
  | pick (m : Str)
deriving DecidableEq

/-- Line 149:
`next((m for m in available_models if 'gemini-1.5-flash' in m), available_models[0])`.
The default `available_models[0]` is evaluated eagerly, so an empty list
raises IndexError. -/
def selectModel (avail : List Str) : SelectOutcome :=
  match avail with
  | [] => .indexError
  | x :: _ => .pick ((nextMatch (fun m => containsSub flashSub m) avail).getD x)

/-- Line 89: `avg_budget = total_budget / len(employees_df)` —
ZeroDivisionError on an empty roster; the value (true division, modelled
exactly as a rational) is computed and then never used. -/
def avgBudget (totalBudget : Int) (nRows : Nat) : Option ℚ :=
  if nRows = 0 then none else some (mkRat totalBudget nRows)

inductive RunOutcome where
  | crash
  | ret (df : DFrame) (errorShown : Bool)

/-- `get_gemini_recommendations` (lines 81-167).  The two external effects
are oracle parameters: `listModels` is the outcome of `genai.list_models()`
(`none` = it raised, caught at line 144), and `response` the outcome of model
construction / `generate_content` / `response.text` (`none` = it raised,
caught at line 165).  `crash` is an uncaught exception escaping the function;
`ret df e` is a returned frame, `e` recording whether `st.error` ran. -/
def getGeminiRecommendations (employees : Roster) (totalBudget : Int)
    (overridesText : Str) (listModels : Option (List GModel))
    (response : Option Str) : RunOutcome :=
  match avgBudget totalBudget employees.rows.length with
  | none => .crash
  | some _ =>
    let _prompt := buildPrompt ((toString totalBudget).data) overridesText (toCsv employees)
    match listModels with
    | none => .ret [] true
    | some ms =>
      match selectModel (availableModels ms) with
      | .indexError => .crash
      | .pick _ =>
        match response with
        | none => .ret [] true
        | some text =>
          match processResponse text with
          | (df, e) => .ret df e

/-! ## Summary metrics (`main`, lines 213-222) -/
def amountKey : Str := ("Allocated_Amount").data

/-- `result_df['Allocated_Amount']`: the column's cells (KeyError when a row
lacks the label; pandas' NaN-filling for frames built from dicts with
differing keys is not modelled — the claim assumes every record carries the
field). -/
def columnOf (col : Str) : DFrame → Option (List Json)
  | [] => some []
  | row :: rest =>
    match row.lookup col with
    | none => none
    | some v => (columnOf col rest).map (fun vs => v :: vs)

/-- `.sum()` of a column of numeric cells (behaviour on non-numeric object
columns — string concatenation, TypeError — is not modelled; the claim
assumes numeric amounts). -/
def pdSeriesSum : List Json → Option ℚ
  | [] => some 0
  | v :: t =>
    match v with
    | .num q => (pdSeriesSum t).map (fun s => q + s)
    | _ => none

/-- `total_used = result_df['Allocated_Amount'].sum()` (line 215). -/
def displayedSpend (df : DFrame) : Option ℚ := (columnOf amountKey df).bind pdSeriesSum

/-- `len(result_df)` (line 219). -/
def displayedCount (df : DFrame) : Nat := df.length

/-- The numeric amount of each record, when every record has one (the reading
the claim quantifies over). -/
def amountsOf : DFrame → Option (List ℚ)
  | [] => some []
  | row :: rest =>
    match row.lookup amountKey with
    | some (.num q) => (amountsOf rest).map (fun qs => q :: qs)
    | _ => none

/-! ## Savings figure (spec-modelled) -/
def bestSavingsLabel : Str := ("Best Savings").data

/-- Modelled from the spec: the strategy-to-rate lookup table of the
Presentation Layer (§4.4, §8) — this revision's source has no strategy
selector or savings figure; the spec's table maps "Best Savings" to 0.12 and
every other strategy label to the default 0.04. -/
def savingsTable : List (Str × ℚ) := [(bestSavingsLabel, mkRat 12 100)]

/-- Modelled from the spec: rate lookup with the 0.04 default. -/
def savingsRate (strategy : Str) : ℚ := (savingsTable.lookup strategy).getD (mkRat 4 100)

/-- Python `round()` on an exact rational: nearest integer, ties to even. -/
def pythonRound (q : ℚ) : Int :=
  let f := ⌊q⌋
  let r := q - (f : ℚ)
  if r < mkRat 1 2 then f
  else if mkRat 1 2 < r then f + 1
  else if f % 2 = 0 then f else f + 1

/-- Modelled from the spec: displayed "estimated savings" =
`round(spend * rate)` for the selected strategy. -/
def displayedSavings (spend : ℚ) (strategy : Str) : Int :=
  pythonRound (spend * savingsRate strategy)

def c7df : DFrame :=
  [[(amountKey, Json.num 30000), (("Level").data, Json.str (("L5").data))],
   [(amountKey, Json.num 20000)]]

def cexRoster : Roster := ⟨[("Name").data], [[("say \"hi\"").data]]⟩

example : pyStrip (("Sure! ```json\n[1, 2]\n``` hope that helps").data) = ("\n[1, 2]\n").data := by decide

example : pyStrip (("```\n[]\n```").data) = ("\n[]\n").data := by decide

example : pyStrip (("[1, 2]").data) = ("[1, 2]").data := by decide

example : pyStrip (("```[1, 2]``` and ```json tail```").data) = (" tail").data := by decide

/-! ### Characterisation of `firstOcc` -/
theorem firstOcc_none_iff (pat : Str) (s : Str) :
    firstOcc pat s = none ↔ ∀ j, ¬ pat.isPrefixOf (s.drop j) = true := by
  induction s with
  | nil =>
    by_cases h : pat.isPrefixOf [] = true
    · simp [firstOcc, h, List.drop_nil]
    · simp [firstOcc, h, List.drop_nil]
  | cons c t ih =>
    by_cases h : pat.isPrefixOf (c :: t) = true
    · have heq : firstOcc pat (c :: t) = some 0 := by simp [firstOcc, h]
      rw [heq]
      constructor
      · intro h0; exact absurd h0 (by simp)
      · intro hall; exact absurd h (hall 0)
    · have heq : firstOcc pat (c :: t) = (firstOcc pat t).map (· + 1) := by simp [firstOcc, h]
      rw [heq]
      constructor
      · intro h0 j
        have ht : firstOcc pat t = none := by
          cases hft : firstOcc pat t with
          | none => rfl
          | some k => rw [hft] at h0; exact absurd h0 (by simp)
        cases j with
        | zero => exact h
        | succ m =>
          have := (ih.mp ht) m
          simpa [List.drop_succ_cons] using this
      · intro hall
        have ht : firstOcc pat t = none :=
          ih.mpr (fun m => by simpa [List.drop_succ_cons] using hall (m + 1))
        rw [ht]; rfl

theorem firstOcc_some_iff (pat : Str) (s : Str) (i : Nat) :
    firstOcc pat s = some i ↔
      (pat.isPrefixOf (s.drop i) = true ∧
        ∀ j, j < i → ¬ pat.isPrefixOf (s.drop j) = true) := by
  induction s generalizing i with
  | nil =>
    by_cases h : pat.isPrefixOf [] = true
    · have heq : firstOcc pat ([] : Str) = some 0 := by simp [firstOcc, h]
      rw [heq]
      constructor
      · intro h0
        have hi : i = 0 := by
          have := Option.some.inj h0; omega
        subst hi
        exact ⟨by simpa [List.drop_nil] using h, fun j hj => absurd hj (Nat.not_lt_zero j)⟩
      · rintro ⟨hp, hmin⟩
        have hi : i = 0 := by
          by_contra hne
          exact hmin 0 (Nat.pos_of_ne_zero hne) (by simpa [List.drop_nil] using h)
        subst hi; rfl
    · have heq : firstOcc pat ([] : Str) = none := by simp [firstOcc, h]
      rw [heq]
      constructor
      · intro h0; exact absurd h0 (by simp)
      · rintro ⟨hp, _⟩; exact absurd hp (by simpa [List.drop_nil] using h)
  | cons c t ih =>
    by_cases h : pat.isPrefixOf (c :: t) = true
    · have heq : firstOcc pat (c :: t) = some 0 := by simp [firstOcc, h]
      rw [heq]
      constructor
      · intro h0
        have hi : i = 0 := by
          have := Option.some.inj h0; omega
        subst hi
        exact ⟨h, fun j hj => absurd hj (Nat.not_lt_zero j)⟩
      · rintro ⟨hp, hmin⟩
        cases i with
        | zero => rfl
        | succ m => exact absurd h (hmin 0 (Nat.succ_pos m))
    · have heq : firstOcc pat (c :: t) = (firstOcc pat t).map (· + 1) := by simp [firstOcc, h]
      rw [heq]
      cases i with
      | zero =>
        constructor
        · intro h0
          cases hft : firstOcc pat t with
          | none => rw [hft] at h0; exact absurd h0 (by simp)
          | some k => rw [hft] at h0; exact absurd h0 (by simp)
        · rintro ⟨hp, _⟩; exact absurd hp h
      | succ m =>
        constructor
        · intro h0
          have hft : firstOcc pat t = some m := by
            cases hft : firstOcc pat t with
            | none => rw [hft] at h0; exact absurd h0 (by simp)
            | some k =>
              rw [hft] at h0
              have : k + 1 = m + 1 := by simpa using Option.some.inj h0
              exact congrArg some (by omega)
          obtain ⟨hp, hmin⟩ := (ih m).mp hft
          refine ⟨by simpa [List.drop_succ_cons] using hp, ?_⟩
          intro j hj
          cases j with
          | zero => exact h
          | succ n =>
            have := hmin n (Nat.lt_of_succ_lt_succ hj)
            simpa [List.drop_succ_cons] using this
        · rintro ⟨hp, hmin⟩
          have hp' : pat.isPrefixOf (t.drop m) = true := by
            simpa [List.drop_succ_cons] using hp
          have hmin' : ∀ j, j < m → ¬ pat.isPrefixOf (t.drop j) = true := by
            intro j hj
            have := hmin (j + 1) (Nat.succ_lt_succ hj)
            simpa [List.drop_succ_cons] using this
          rw [(ih m).mpr ⟨hp', hmin'⟩]; rfl

/-! ### Occurrence lemmas over appends -/
theorem isPrefixOf_append_left {pat a : Str} (b : Str)
    (h : pat.isPrefixOf a = true) : pat.isPrefixOf (a ++ b) = true := by
  rw [List.isPrefixOf_iff_prefix] at h ⊢
  exact h.trans (List.prefix_append a b)

theorem isPrefixOf_of_append {pat a b : Str}
    (h : pat.isPrefixOf (a ++ b) = true) (hlen : pat.length ≤ a.length) :
    pat.isPrefixOf a = true := by
  rw [List.isPrefixOf_iff_prefix] at h ⊢
  rw [List.prefix_iff_eq_take] at h ⊢
  rw [List.take_append_of_le_length hlen] at h
  exact h

theorem drop_append_of_le {a : Str} (b : Str) {j : Nat} (h : j ≤ a.length) :
    (a ++ b).drop j = a.drop j ++ b := by
  rw [List.drop_append_eq_append_drop, Nat.sub_eq_zero_of_le h, List.drop_zero]

/-- If the first occurrence of `pat` in `a ++ pat` is the trailing copy of
`pat` (no occurrence starts inside `a`), then this stays the first occurrence
after appending any `b`. -/
theorem firstOcc_append_anchor {pat a : Str}
    (h : firstOcc pat (a ++ pat) = some a.length) (b : Str) :
    firstOcc pat (a ++ pat ++ b) = some a.length := by
  obtain ⟨_, hmin⟩ := (firstOcc_some_iff pat (a ++ pat) a.length).mp h
  apply (firstOcc_some_iff pat (a ++ pat ++ b) a.length).mpr
  constructor
  · rw [List.append_assoc, List.drop_append_eq_append_drop, List.drop_length,
      Nat.sub_self, List.drop_zero, List.nil_append]
    exact isPrefixOf_append_left b (List.isPrefixOf_iff_prefix.mpr List.prefix_rfl)
  · intro j hj hcon
    have hj' : j ≤ (a ++ pat).length := by
      rw [List.length_append]; omega
    rw [drop_append_of_le b hj'] at hcon
    have hlen : pat.length ≤ ((a ++ pat).drop j).length := by
      rw [List.length_drop, List.length_append]; omega
    exact hmin j hj (isPrefixOf_of_append hcon hlen)

/-- Under the same no-early-occurrence condition, `pat` does not occur in `a`
at all (for non-empty `pat`). -/
theorem firstOcc_none_of_anchor {pat a : Str} (hpat : pat ≠ [])
    (h : firstOcc pat (a ++ pat) = some a.length) :
    firstOcc pat a = none := by
  obtain ⟨_, hmin⟩ := (firstOcc_some_iff pat (a ++ pat) a.length).mp h
  apply (firstOcc_none_iff pat a).mpr
  intro j hcon
  by_cases hj : j < a.length
  · apply hmin j hj
    rw [drop_append_of_le pat (Nat.le_of_lt hj)]
    exact isPrefixOf_append_left pat hcon
  · have hdrop : a.drop j = [] := List.drop_eq_nil_of_le (Nat.le_of_not_lt hj)
    rw [hdrop] at hcon
    cases pat with
    | nil => exact hpat rfl
    | cons p ps => exact absurd hcon (by simp [List.isPrefixOf])

theorem takeUntil_eq_of_none {pat s : Str} (h : firstOcc pat s = none) :
    takeUntil pat s = s := by
  rw [takeUntil, h]

theorem takeUntil_eq_of_some {pat s : Str} {i : Nat} (h : firstOcc pat s = some i) :
    takeUntil pat s = s.take i := by
  rw [takeUntil, h]

theorem afterFirst_anchor {pat a : Str}
    (h : firstOcc pat (a ++ pat) = some a.length) (b : Str) :
    afterFirst pat (a ++ pat ++ b) = b := by
  rw [afterFirst, firstOcc_append_anchor h b]
  show (a ++ pat ++ b).drop (a.length + pat.length) = b
  rw [show a.length + pat.length = (a ++ pat).length from (List.length_append a pat).symm]
  exact List.drop_left (a ++ pat) b

/-- C1 (corrected): the fence-stripping step recovers exactly the body of the
first fenced block, but only under first-occurrence side conditions.
Labeled form: if the intended opener is the first occurrence of "```json",
the intended closer is the first "```" after the body, and no "```json"
occurrence starts strictly inside the closer, the body is recovered whatever
the suffix.  Bare form: if the whole text contains no "```json" and the
intended markers are the first occurrences of "```", the body is recovered. -/
theorem claim_C1_theorem :
    (∀ pre body suf : Str,
      firstOcc fenceJson (pre ++ fenceJson) = some pre.length →
      firstOcc fenceBare (body ++ fenceBare) = some body.length →
      fenceSafe body suf = true →
      pyStrip (pre ++ fenceJson ++ (body ++ fenceBare ++ suf)) = body) ∧
    (∀ pre body suf : Str,
      containsSub fenceJson (pre ++ fenceBare ++ (body ++ fenceBare ++ suf)) = false →
      firstOcc fenceBare (pre ++ fenceBare) = some pre.length →
      firstOcc fenceBare (body ++ fenceBare) = some body.length →
      pyStrip (pre ++ fenceBare ++ (body ++ fenceBare ++ suf)) = body) := by
  have hBareNe : fenceBare ≠ ([] : Str) := by decide
  have hfb3 : fenceBare.length = 3 := rfl
  constructor
  · intro pre body suf h1 h2 h3
    have hOcc : firstOcc fenceJson ((pre ++ fenceJson) ++ (body ++ fenceBare ++ suf))
        = some pre.length := firstOcc_append_anchor h1 _
    have hc1 : containsSub fenceJson (pre ++ fenceJson ++ (body ++ fenceBare ++ suf)) = true := by
      rw [containsSub, hOcc]; rfl
    rw [pyStrip, if_pos hc1, afterFirst_anchor h1 (body ++ fenceBare ++ suf)]
    cases hq : firstOcc fenceJson (body ++ fenceBare ++ suf) with
    | none =>
      rw [takeUntil_eq_of_none hq,
        takeUntil_eq_of_some (firstOcc_append_anchor h2 suf),
        List.append_assoc]
      exact List.take_left body (fenceBare ++ suf)
    | some q =>
      rw [fenceSafe, hq] at h3
      have h3' : q = body.length ∨ body.length + 3 ≤ q := by
        rcases Bool.or_eq_true_iff.mp h3 with h | h
        · exact Or.inl (by simpa using h)
        · exact Or.inr (Nat.le_of_ble_eq_true h)
      rcases h3' with h3' | h3'
      · subst h3'
        rw [takeUntil_eq_of_some hq, List.append_assoc, List.take_left body (fenceBare ++ suf),
          takeUntil_eq_of_none (firstOcc_none_of_anchor hBareNe h2)]
      · have hlen12 : (body ++ fenceBare).length = body.length + 3 := by
          rw [List.length_append, hfb3]
        have hu : (body ++ fenceBare ++ suf).take q
            = body ++ fenceBare ++ suf.take (q - (body.length + 3)) := by
          rw [List.take_append_eq_append_take,
            List.take_of_length_le (by rw [hlen12]; exact h3'), hlen12]
        rw [takeUntil_eq_of_some hq, hu,
          takeUntil_eq_of_some (firstOcc_append_anchor h2 (suf.take (q - (body.length + 3)))),
          List.append_assoc]
        exact List.take_left body (fenceBare ++ suf.take (q - (body.length + 3)))
  · intro pre body suf h0 h1 h2
    have hOccB : firstOcc fenceBare ((pre ++ fenceBare) ++ (body ++ fenceBare ++ suf))
        = some pre.length := firstOcc_append_anchor h1 _
    have hc2 : containsSub fenceBare (pre ++ fenceBare ++ (body ++ fenceBare ++ suf)) = true := by
      rw [containsSub, hOccB]; rfl
    have hc1 : ¬ containsSub fenceJson (pre ++ fenceBare ++ (body ++ fenceBare ++ suf)) = true := by
      rw [h0]; exact Bool.false_ne_true
    rw [pyStrip, if_neg hc1, if_pos hc2, afterFirst_anchor h1 (body ++ fenceBare ++ suf),
      takeUntil_eq_of_some (firstOcc_append_anchor h2 suf),
      List.append_assoc, List.take_left body (fenceBare ++ suf),
      takeUntil_eq_of_none (firstOcc_none_of_anchor hBareNe h2)]

/-- C1 witness: concrete labeled and bare fenced responses (the labeled one
with a fence-like suffix) from which the body is recovered. -/
theorem claim_C1_witness :
    pyStrip (("Sure: ").data ++ fenceJson ++ (("\n[1, 2]\n").data ++ fenceBare ++ (" trailing ``` prose").data))
      = ("\n[1, 2]\n").data ∧
    pyStrip (("ok ").data ++ fenceBare ++ (("[3]").data ++ fenceBare ++ (" tail").data))
      = ("[3]").data := by
  constructor
  · exact claim_C1_theorem.1 (("Sure: ").data) (("\n[1, 2]\n").data) ((" trailing ``` prose").data)
      (by decide) (by decide) (by decide)
  · exact claim_C1_theorem.2 (("ok ").data) (("[3]").data) ((" tail").data)
      (by decide) (by decide) (by decide)

/-- C1 counterexample: for `prefix = ""`, `json-array = "[1, 2]"`,
`suffix = " and ```json tail```"` (a suffix containing fence-like substrings),
the bare-fence response is NOT stripped to the json-array: the labeled branch
fires on the suffix's "```json" and the step returns " tail". -/
theorem claim_C1_counterexample :
    pyStrip (("```[1, 2]``` and ```json tail```").data) = (" tail").data ∧
    (" tail").data ≠ ("[1, 2]").data := by
  exact ⟨by decide, by decide⟩

theorem firstOcc_eq_none_of_contains_false {pat t : Str}
    (h : containsSub pat t = false) : firstOcc pat t = none := by
  cases hf : firstOcc pat t with
  | none => rfl
  | some j => rw [containsSub, hf] at h; exact absurd h (by simp)

/-- A text without the bare marker has no labeled marker either. -/
theorem containsSub_fenceJson_eq_false {t : Str}
    (h : containsSub fenceBare t = false) : containsSub fenceJson t = false := by
  cases hf : firstOcc fenceJson t with
  | none => rw [containsSub, hf]; rfl
  | some j =>
    obtain ⟨hp, _⟩ := (firstOcc_some_iff fenceJson t j).mp hf
    have hnone := (firstOcc_none_iff fenceBare t).mp (firstOcc_eq_none_of_contains_false h)
    have hbare : fenceBare.isPrefixOf (t.drop j) = true := by
      rw [List.isPrefixOf_iff_prefix] at hp ⊢
      exact List.IsPrefix.trans (by decide) hp
    exact absurd hbare (hnone j)

/-- C4 (corrected): on a response without fence markers the fence-stripping
step is the identity, so the structural parser receives the raw response text
with only its leading and trailing whitespace removed (not necessarily
unchanged). -/
theorem claim_C4_theorem :
    ∀ t : Str, containsSub fenceBare t = false →
      pyStrip t = t ∧ parserInput t = pyStringStrip t := by
  intro t h
  have hj : ¬ containsSub fenceJson t = true := by
    rw [containsSub_fenceJson_eq_false h]; exact Bool.false_ne_true
  have hb : ¬ containsSub fenceBare t = true := by
    rw [h]; exact Bool.false_ne_true
  have h1 : pyStrip t = t := by rw [pyStrip, if_neg hj, if_neg hb]
  exact ⟨h1, by rw [parserInput, h1]⟩

/-- C4 witness: a fence-free response passes through the fence step unchanged. -/
theorem claim_C4_witness :
    pyStrip (("[1, 2]").data) = ("[1, 2]").data ∧
    parserInput (("[1, 2]").data) = pyStringStrip (("[1, 2]").data) :=
  claim_C4_theorem (("[1, 2]").data) (by decide)

/-- C4 counterexample: `" [1] "` contains no fence marker, yet the text handed
to the structural parser is `"[1]"`, not the raw response text. -/
theorem claim_C4_counterexample :
    containsSub fenceBare ((" [1] ").data) = false ∧
    parserInput ((" [1] ").data) = ("[1]").data ∧
    parserInput ((" [1] ").data) ≠ (" [1] ").data := by
  exact ⟨by decide, by decide, by decide⟩

example : jsonLoads (("[]").data) = some (.arr []) := by rfl

example : jsonLoads ((" [1, 2] ").data) = some (.arr [.num 1, .num 2]) := by rfl

example : jsonLoads (("\x7b\"a\": [1, 2]\x7d").data) = some (.obj [(("a").data, .arr [.num 1, .num 2])]) := by rfl

example : jsonLoads (("[\x7b\"a\": 1").data) = none := by rfl

example : jsonLoads (("oops").data) = none := by rfl

example : jsonLoads (("[1,]").data) = none := by rfl

example : jsonLoads (("\x7b\"a\": 1\x7d extra").data) = none := by rfl

example : jsonLoads (("\"h\\u00e9\"").data) = some (.str ("hé").data) := by rfl

example : jsonLoads (("1.5").data) = some (.num (mkRat 3 2)) := by rfl

example : jsonLoads (("-2e2").data) = some (.num (-200)) := by rfl

/-! ### Claim C2: zero-record success versus the failure signal -/
/-- C2 (corrected): a fence-stripped response decoding to an empty JSON array
is a success — an empty frame is returned and the error branch does not run —
while any undecodable response returns an empty frame with the error branch
run.  But the two returned frames are EQUAL: the returned value does not
distinguish zero-record success from failure; only the error display does. -/
theorem claim_C2_theorem :
    ∀ t u : Str, jsonLoads (parserInput t) = some (Json.arr []) →
      jsonLoads (parserInput u) = none →
      processResponse t = ([], false) ∧ processResponse u = ([], true) ∧
        (processResponse t).1 = (processResponse u).1 := by
  intro t u ht hu
  have h1 : processResponse t = ([], false) := by rw [processResponse, ht]; rfl
  have h2 : processResponse u = ([], true) := by rw [processResponse, hu]
  exact ⟨h1, h2, by rw [h1, h2]⟩

/-- C2 witness: the zero-record response `"[]"` against the undecodable
response `"oops"`. -/
theorem claim_C2_witness :
    processResponse (("[]").data) = ([], false) ∧
    processResponse (("oops").data) = ([], true) ∧
    (processResponse (("[]").data)).1 = (processResponse (("oops").data)).1 :=
  claim_C2_theorem (("[]").data) (("oops").data) (by rfl) (by rfl)

/-- C2 counterexample: the frame returned for the zero-record success `"[]"`
is identical to the frame returned for the parse failure `"oops"` — the
success-empty result is NOT distinguishable from the failure signal by the
returned value (`pd.DataFrame([])` and `pd.DataFrame()` are both the empty
frame); the cases differ only in the `st.error` side effect. -/
theorem claim_C2_counterexample :
    (processResponse (("[]").data)).1 = (processResponse (("oops").data)).1 ∧
    (processResponse (("[]").data)).2 ≠ (processResponse (("oops").data)).2 := by
  exact ⟨by rfl, by decide⟩

/-! ### Claim C3: deviant responses and the failure signal -/
/-- C3 (corrected): every response whose fence- and whitespace-stripped text
fails JSON decoding — truncations mid-record, non-JSON prose, trailing
commas, comments — makes the extractor run the error branch and return the
empty failure frame; no rows are ever returned from a failed parse. -/
theorem claim_C3_theorem :
    ∀ t : Str, jsonLoads (parserInput t) = none →
      processResponse t = ([], true) := by
  intro t ht
  rw [processResponse, ht]

/-- C3 witness: a response truncated mid-record fails the parse and yields
the failure signal. -/
theorem claim_C3_witness :
    processResponse (("[\x7b\"Employee_Name\": \"Abhishek\", \"Allocated_Amount\": 30").data)
      = ([], true) :=
  claim_C3_theorem (("[\x7b\"Employee_Name\": \"Abhishek\", \"Allocated_Amount\": 30").data)
    (by rfl)

/-- C3 counterexample: the response `{"a": [1, 2]}` — a single object instead
of a list — does NOT fail: `json.loads` decodes it and `pd.DataFrame` accepts
the dict of equal-length list columns, so the extractor returns a non-empty
two-row frame with no error. -/
theorem claim_C3_counterexample :
    processResponse (("\x7b\"a\": [1, 2]\x7d").data)
      = ([[(("a").data, Json.num 1)], [(("a").data, Json.num 2)]], false) ∧
    ([[(("a").data, Json.num 1)], [(("a").data, Json.num 2)]] : DFrame) ≠ [] ∧
    (processResponse (("\x7b\"a\": [1, 2]\x7d").data)).2 = false := by
  refine ⟨by rfl, by simp, by rfl⟩

/-! ### Claim C5: the model-selection policy -/
theorem nextMatch_none_iff (p : Str → Bool) :
    ∀ l : List Str, nextMatch p l = none ↔ ∀ m ∈ l, p m = false := by
  intro l
  induction l with
  | nil => simp [nextMatch]
  | cons a t ih =>
    by_cases h : p a = true
    · simp [nextMatch, h]
    · have hf : p a = false := by revert h; cases p a <;> simp
      simp [nextMatch, hf, ih]

theorem nextMatch_some_spec (p : Str → Bool) :
    ∀ (l : List Str) (m : Str), nextMatch p l = some m →
      p m = true ∧ ∃ pre post, l = pre ++ m :: post ∧ ∀ m2 ∈ pre, p m2 = false := by
  intro l
  induction l with
  | nil => intro m h; exact absurd h (by simp [nextMatch])
  | cons a t ih =>
    intro m h
    by_cases hp : p a = true
    · simp only [nextMatch, if_pos hp] at h
      obtain rfl : a = m := Option.some.inj h
      exact ⟨hp, [], t, rfl, by simp⟩
    · simp only [nextMatch, if_neg hp] at h
      obtain ⟨hm, pre, post, heq, hpre⟩ := ih m h
      refine ⟨hm, a :: pre, post, by rw [heq, List.cons_append], ?_⟩
      intro m2 hm2
      rcases List.mem_cons.mp hm2 with rfl | hm2
      · revert hp; cases p m2 <;> simp
      · exact hpre m2 hm2

/-- C5 (corrected): for a non-empty entitled list the picked identifier is the
first entry containing the fastest-tier substring "gemini-1.5-flash" if one
exists, else the first entitled entry overall.  (The spec's further tiers —
a stronger tier, then the provider family-name substring — do not exist in
the code; see the counterexample.) -/
theorem claim_C5_theorem :
    ∀ (x : Str) (l : List Str),
      ∃ m, selectModel (x :: l) = .pick m ∧
        ((containsSub flashSub m = true ∧
          ∃ pre post, x :: l = pre ++ m :: post ∧
            ∀ m2 ∈ pre, containsSub flashSub m2 = false) ∨
         ((∀ m2 ∈ x :: l, containsSub flashSub m2 = false) ∧ m = x)) := by
  intro x l
  cases hm : nextMatch (fun m => containsSub flashSub m) (x :: l) with
  | none =>
    refine ⟨x, ?_, Or.inr ⟨?_, rfl⟩⟩
    · simp only [selectModel, hm]; rfl
    · exact fun m2 hm2 => (nextMatch_none_iff _ (x :: l)).mp hm m2 hm2
  | some m =>
    obtain ⟨hp, pre, post, heq, hpre⟩ := nextMatch_some_spec _ (x :: l) m hm
    exact ⟨m, by simp only [selectModel, hm]; rfl, Or.inl ⟨hp, pre, post, heq, hpre⟩⟩

/-- C5 counterexample: with entitled list
`["models/text-bison-001", "models/gemini-1.5-pro"]` the claim's policy picks
the stronger-tier / family-name match "models/gemini-1.5-pro", but the code
picks the first entry, which contains neither "gemini-1.5-flash" nor even
"gemini". -/
theorem claim_C5_counterexample :
    selectModel [("models/text-bison-001").data, ("models/gemini-1.5-pro").data]
      = .pick (("models/text-bison-001").data) ∧
    containsSub (("gemini").data) (("models/text-bison-001").data) = false ∧
    containsSub (("gemini").data) (("models/gemini-1.5-pro").data) = true ∧
    containsSub (("gemini-1.5-pro").data) (("models/gemini-1.5-pro").data) = true := by
  refine ⟨by decide, by decide, by decide, by decide⟩

/-! ### Claim C6: empty entitled-model set -/
/-- C6 (code bug): when the listing succeeds but no listed model supports
content generation, the entitled set is empty and `available_models[0]`
raises an uncaught IndexError — the run crashes instead of reporting an
error and returning the failure frame. -/
theorem claim_C6_theorem :
    getGeminiRecommendations mockEmployeeDb 50000 (("0").data)
        (some [⟨("models/embedding-001").data, [("embedContent").data]⟩]) none
      = RunOutcome.crash ∧
    availableModels [⟨("models/embedding-001").data, [("embedContent").data]⟩] = [] ∧
    ∀ df e, RunOutcome.crash ≠ RunOutcome.ret df e := by
  refine ⟨by rfl, by rfl, fun df e h => RunOutcome.noConfusion h⟩

/-! ### Claim C10: the unguarded division on an empty roster -/
/-- C10 (confirmed): `total_budget / len(employees_df)` runs before any error
handling or model interaction, so an empty roster crashes the function
whatever the models and response oracles would do; the failure signal
(`ret [] true`) is never produced. -/
theorem claim_C10_theorem :
    ∀ (hdr : List Str) (budget : Int) (o : Str) (lm : Option (List GModel))
      (resp : Option Str),
      getGeminiRecommendations ⟨hdr, []⟩ budget o lm resp = RunOutcome.crash ∧
      avgBudget budget 0 = none ∧
      ∀ df e, RunOutcome.crash ≠ RunOutcome.ret df e := by
  intro hdr budget o lm resp
  exact ⟨rfl, rfl, fun df e h => RunOutcome.noConfusion h⟩

/-! ### Claim C7: displayed spend and employee count -/
theorem spend_count_of_amounts :
    ∀ (df : DFrame) (qs : List ℚ), amountsOf df = some qs →
      displayedSpend df = some qs.sum ∧ df.length = qs.length := by
  intro df
  induction df with
  | nil =>
    intro qs h
    obtain rfl : ([] : List ℚ) = qs := Option.some.inj h
    exact ⟨rfl, rfl⟩
  | cons row rest ih =>
    intro qs h
    simp only [amountsOf] at h
    cases hl : row.lookup amountKey with
    | none => rw [hl] at h; exact absurd h (by simp)
    | some v =>
      rw [hl] at h
      cases v with
      | num q =>
        cases hr : amountsOf rest with
        | none => rw [hr] at h; exact absurd h (by simp)
        | some qs' =>
          rw [hr] at h
          obtain rfl : q :: qs' = qs := by simpa using h
          obtain ⟨hs, hlen⟩ := ih qs' hr
          constructor
          · cases hc : columnOf amountKey rest with
            | none => rw [displayedSpend, hc] at hs; exact absurd hs (by simp)
            | some vs =>
              rw [displayedSpend, hc] at hs
              simp only [Option.some_bind] at hs
              rw [displayedSpend]
              simp only [columnOf, hl, hc, Option.map_some]
              simp [pdSeriesSum, hs]
          · simpa using hlen
      | null => exact absurd h (by simp)
      | bool b => exact absurd h (by simp)
      | str s => exact absurd h (by simp)
      | arr xs => exact absurd h (by simp)
      | obj kvs => exact absurd h (by simp)
      | nan => exact absurd h (by simp)
      | inf p => exact absurd h (by simp)

/-- C7 (confirmed): on a displayed (non-empty) result frame in which every
record carries a numeric `Allocated_Amount`, the displayed aggregate spend is
the sum of those amounts and the displayed employee count is the number of
records. -/
theorem claim_C7_theorem :
    ∀ (df : DFrame) (qs : List ℚ), amountsOf df = some qs → df ≠ [] →
      displayedSpend df = some qs.sum ∧ displayedCount df = qs.length := by
  intro df qs h _
  exact ⟨(spend_count_of_amounts df qs h).1, (spend_count_of_amounts df qs h).2⟩

/-- C7 witness: a concrete two-record frame with numeric amounts. -/
theorem claim_C7_witness :
    amountsOf c7df = some [(30000 : ℚ), 20000] ∧ c7df ≠ [] ∧
    displayedSpend c7df = some ([(30000 : ℚ), 20000]).sum ∧
    displayedCount c7df = 2 := by
  have h : amountsOf c7df = some [(30000 : ℚ), 20000] := by rfl
  have hne : c7df ≠ [] := by simp [c7df]
  obtain ⟨h1, h2⟩ := claim_C7_theorem c7df [(30000 : ℚ), 20000] h hne
  exact ⟨h, hne, h1, by rw [h2]; rfl⟩

/-! ### Claim C8: the savings figure (spec-modelled) -/
/-- C8 (confirmed against the spec-model): the displayed savings equal
`round(spend * 0.12)` for the "Best Savings" strategy and
`round(spend * 0.04)` for every other strategy label, per the lookup table. -/
theorem claim_C8_theorem :
    ∀ (spend : ℚ) (strategy : Str),
      (strategy = bestSavingsLabel →
        displayedSavings spend strategy = pythonRound (spend * mkRat 12 100)) ∧
      (strategy ≠ bestSavingsLabel →
        displayedSavings spend strategy = pythonRound (spend * mkRat 4 100)) := by
  intro spend strategy
  constructor
  · intro h
    subst h
    rw [displayedSavings, savingsRate, savingsTable]
    simp [List.lookup]
  · intro h
    have hb : (strategy == bestSavingsLabel) = false := beq_eq_false_iff_ne.mpr h
    rw [displayedSavings, savingsRate, savingsTable]
    simp [List.lookup, hb]

/-- C8 witness: the spec's end-to-end scenario rates at budget 50000. -/
theorem claim_C8_witness :
    displayedSavings 50000 bestSavingsLabel = pythonRound ((50000 : ℚ) * mkRat 12 100) ∧
    displayedSavings 50000 (("Max Impact").data) = pythonRound ((50000 : ℚ) * mkRat 4 100) :=
  ⟨(claim_C8_theorem 50000 bestSavingsLabel).1 rfl,
   (claim_C8_theorem 50000 (("Max Impact").data)).2 (by decide)⟩

/-! ### Claim C9: the roster in the prompt -/
theorem infix_append_left_of (a : Str) {l x : Str} (h : l <:+: x) : l <:+: a ++ x := by
  obtain ⟨s, t, heq⟩ := h
  exact ⟨a ++ s, t, by rw [← heq]; simp [List.append_assoc]⟩

theorem infix_append_right_of (b : Str) {l x : Str} (h : l <:+: x) : l <:+: x ++ b := by
  obtain ⟨s, t, heq⟩ := h
  exact ⟨s, t ++ b, by rw [← heq]; simp [List.append_assoc]⟩

theorem mem_infix_csvJoin : ∀ (gs : List Str) (g : Str), g ∈ gs → g <:+: csvJoin gs := by
  intro gs
  induction gs with
  | nil => intro g hg; exact absurd hg (List.not_mem_nil g)
  | cons a t ih =>
    intro g hg
    rcases List.mem_cons.mp hg with rfl | hg
    · cases t with
      | nil => exact List.infix_rfl
      | cons b t2 => exact ⟨[], ',' :: csvJoin (b :: t2), rfl⟩
    · cases t with
      | nil => exact absurd hg (List.not_mem_nil g)
      | cons b t2 =>
        have h1 : g <:+: csvJoin (b :: t2) := ih g hg
        have h2 : g <:+: [','] ++ csvJoin (b :: t2) := infix_append_left_of [','] h1
        exact infix_append_left_of a h2

/-- C9 (corrected): the serialised roster (CSV) appears verbatim as a
contiguous substring of the prompt, and every header name and cell that needs
no CSV quoting appears verbatim; fields containing a separator, a quote or a
line break are CSV-quoted first (see the counterexample), so "no escaping or
modification" holds only for fields without those characters. -/
theorem claim_C9_theorem :
    (∀ (r : Roster) (b o : Str), toCsv r <:+: promptFor r b o) ∧
    (∀ (r : Roster) (b o f : Str),
      (f ∈ r.header ∨ ∃ row ∈ r.rows, f ∈ row) →
      csvNeedsQuote f = false →
      f <:+: promptFor r b o) := by
  have hcsv : ∀ (r : Roster) (b o : Str), toCsv r <:+: promptFor r b o := by
    intro r b o
    exact ⟨promptChunk1 ++ b ++ promptChunk2 ++ o ++ promptChunk3, promptChunk4, rfl⟩
  refine ⟨hcsv, ?_⟩
  intro r b o f hf hclean
  have hfield : csvField f = f := by
    rw [csvField, if_neg (by rw [hclean]; exact Bool.false_ne_true)]
  have hline : ∀ fs, f ∈ fs → f <:+: csvLine fs := by
    intro fs hmem
    have hmap : csvField f ∈ fs.map csvField := List.mem_map_of_mem csvField hmem
    rw [hfield] at hmap
    exact infix_append_right_of ['\n'] (mem_infix_csvJoin (fs.map csvField) f hmap)
  have hcsv2 : f <:+: toCsv r := by
    rcases hf with hh | ⟨row, hrow, hfr⟩
    · exact infix_append_right_of ((r.rows.map csvLine).flatten) (hline r.header hh)
    · have h1 : f <:+: csvLine row := hline row hfr
      have h2 : csvLine row <:+: (r.rows.map csvLine).flatten :=
        List.infix_of_mem_flatten (List.mem_map_of_mem csvLine hrow)
      exact infix_append_left_of (csvLine r.header) (h1.trans h2)
  exact hcsv2.trans (hcsv r b o)

/-- C9 witness: the mock roster's CSV is embedded in the prompt, and the
clean cell "Sales" appears verbatim. -/
theorem claim_C9_witness :
    toCsv mockEmployeeDb <:+: promptFor mockEmployeeDb (("50000").data) (("0").data) ∧
    ("Sales").data <:+: promptFor mockEmployeeDb (("50000").data) (("0").data) :=
  ⟨claim_C9_theorem.1 mockEmployeeDb (("50000").data) (("0").data),
   claim_C9_theorem.2 mockEmployeeDb (("50000").data) (("0").data) (("Sales").data)
     (by decide) (by decide)⟩

theorem not_infix_of_contains_false {pat s : Str} (h : containsSub pat s = false) :
    ¬ pat <:+: s := by
  intro hinf
  obtain ⟨a, b, heq⟩ := hinf
  have hnone := (firstOcc_none_iff pat s).mp (firstOcc_eq_none_of_contains_false h)
  apply hnone a.length
  have hdrop : (a ++ pat ++ b).drop a.length = pat ++ b := by
    rw [List.append_assoc]; exact List.drop_left a (pat ++ b)
  rw [← heq, hdrop]
  exact isPrefixOf_append_left b (List.isPrefixOf_iff_prefix.mpr List.prefix_rfl)

/-- C9 counterexample: the roster cell `say "hi"` (a free-text field
containing a quote) does NOT flow unmodified into the outbound payload:
`to_csv` escapes it (minimal quoting, doubled quotes), the serialised roster
embedded in the prompt is `Name\n"say ""hi"""\n`, and the raw field is not a
substring of that serialisation. -/
theorem claim_C9_counterexample :
    cexRoster.rows = [[("say \"hi\"").data]] ∧
    csvField (("say \"hi\"").data) ≠ ("say \"hi\"").data ∧
    toCsv cexRoster = ("Name\n\"say \"\"hi\"\"\"\n").data ∧
    ¬ (("say \"hi\"").data <:+: toCsv cexRoster) := by
  refine ⟨rfl, by decide, by decide, not_infix_of_contains_false (by decide)⟩
